import Mathlib

/-!
# Storefront handlers (`internal/api/user_handler.go`)

A shallow embedding of the HTTP handlers of the storefront backend.  A handler
is a function from the request context and the current persistent store to an
`Outcome`: the response it writes, the store it leaves behind and the list of
`Repository` calls it issued, in order.

The packages `models`, `middleware`, `util` and the `Repository` implementation
are not part of the handler file.  The record types below carry the fields the
handlers read or write; the repository, the token functions and the request
binding are parameters of the handlers.

Numbers: identifiers are `uint` (`Nat`), quantities are integers (`Int`, which
covers both a signed and an unsigned declaration), prices and totals are
`float64` taken as exact rationals (`ℚ`).
-/

namespace ECommerce

/-! ## Data model -/

/-- Record `models.User`: the fields the handlers read. -/
structure User where
  ID : Nat
  Email : String
  Password : String
deriving DecidableEq, Repr

/-- Record `models.LoginRequestUser`. -/
structure LoginRequestUser where
  Email : String
  Password : String
deriving DecidableEq, Repr

/-- Record `models.Product`: price and available quantity. -/
structure Product where
  ID : Nat
  Price : ℚ
  Quantity : Int
deriving DecidableEq, Repr

/-- Record `models.IndividualItemInCart`: one cart line. -/
structure IndividualItemInCart where
  ID : Nat
  UserID : Nat
  ProductID : Nat
  Quantity : Int
deriving DecidableEq, Repr

/-- Record `models.CartItem`: a cart line as shown by `ViewCart`. -/
structure CartItem where
  CartID : Nat
  Product : Product
  Quantity : Int
deriving DecidableEq, Repr

/-- Modelled from the spec: the declaration of `models.OrderItem` is not in the
handler file; the spec gives it as (order reference, product reference,
quantity, price-at-order-time).  The handler's composite literal names
`ProductID` and `Quantity` only, so every other field keeps Go's zero value. -/
structure OrderItem where
  ID : Nat
  OrderID : Nat
  ProductID : Nat
  Quantity : Int
  Price : ℚ
deriving DecidableEq, Repr

/-- Record `models.Order`: the fields the handlers read or write. -/
structure Order where
  ID : Nat
  UserID : Nat
  Total : ℚ
  Status : String
  Items : List OrderItem
deriving DecidableEq, Repr

/-! ## Responses -/

/-- The fourth argument of `util.Response`: an error text, a record, a list or
one of the `gin.H` maps built by the handlers. -/
inductive Payload where
  | null
  | text (s : String)
  | product (p : Product)
  | products (ps : List Product)
  | cart (cart : List CartItem) (total : ℚ)
  | login (user : User) (access_token : String) (refresh_token : String)
  | orders (orders : List Order)
deriving DecidableEq, Repr

/-- What a handler leaves on the `gin.Context`: the envelope written by
`util.Response` and the headers set with `c.Header`. -/
structure Response where
  message : String
  status : Nat
  data : Payload
  headers : List (String × String)
deriving DecidableEq, Repr

/-- The call `util.Response(c, message, status, data, nil)` on a context on
which no header was set. -/
def respond (message : String) (status : Nat) (data : Payload) : Response :=
  { message := message, status := status, data := data, headers := [] }

/-! ## Collaborators taken as parameters -/

/-- The request as the handlers see it: the result of `GetUserFromContext`, of
`c.ShouldBind` for each body type, of `strconv.Atoi(c.Param("id"))`, and the
value of `os.Getenv("JWT_SECRET")`. -/
structure Context where
  GetUserFromContext : Except String User
  ShouldBindLogin : Except String LoginRequestUser
  ShouldBindCart : Except String IndividualItemInCart
  ParamID : Except String Int
  JWT_SECRET : String

/-- The functions of `middleware` and `bcrypt` used by `LoginUser`, over an
abstract type of claim sets. -/
structure Middleware (κ : Type) where
  GenerateClaims : String → κ × κ
  GenerateToken : κ → String → Except String String
  CompareHashAndPassword : String → String → Except String Unit

/-- The `Repository` interface over a store of type `σ`.  A read answers from
the store; a write returns its error (or none) and the store it leaves. -/
structure Repository (σ : Type) where
  FindUserByEmail : σ → String → Except String User
  GetAllProducts : σ → Except String (List Product)
  GetProductByID : σ → Nat → Except String Product
  GetCartsByUserID : σ → Nat → Except String (List IndividualItemInCart)
  GetCartItemByProductID : σ → Nat → Except String IndividualItemInCart
  OrderHistorybyUserID : σ → Nat → Except String (List Order)
  GetOrderItemsByOrderID : σ → Nat → Except String (List OrderItem)
  AddToCart : σ → IndividualItemInCart → Option String × σ
  DeleteProductFromCart : σ → IndividualItemInCart → Option String × σ
  CreateOrder : σ → Order → Option String × σ

/-- One repository call issued by a handler, with its arguments. -/
inductive Call where
  | FindUserByEmail (email : String)
  | GetAllProducts
  | GetProductByID (id : Nat)
  | GetCartsByUserID (id : Nat)
  | GetCartItemByProductID (id : Nat)
  | OrderHistorybyUserID (id : Nat)
  | GetOrderItemsByOrderID (id : Nat)
  | AddToCart (cart : IndividualItemInCart)
  | DeleteProductFromCart (cart : IndividualItemInCart)
  | CreateOrder (order : Order)
deriving DecidableEq, Repr

/-- The calls that write to the store. -/
def Call.isWrite : Call → Bool
  | .AddToCart _ => true
  | .DeleteProductFromCart _ => true
  | .CreateOrder _ => true
  | _ => false

/-- The result of running a handler. -/
structure Outcome (σ : Type) where
  response : Response
  store : σ
  calls : List Call

/-- The conversion `uint(id)` of a Go `int` on a 64-bit platform. -/
def toUint (id : Int) : Nat :=
  (id % 18446744073709551616).toNat

/-! ## Handlers -/

/-- The loop of `PlaceOrder` over the cart lines, with the running `total`,
the `orderItems` built so far and the calls issued so far.  It stops with a
response at the first failed product lookup or the first line that exceeds the
stock. -/
def placeOrderLoop {σ : Type} (r : Repository σ) (s : σ) :
    List IndividualItemInCart → ℚ → List OrderItem → List Call →
      Except Response (ℚ × List OrderItem) × List Call
  | [], total, orderItems, calls => (.ok (total, orderItems), calls)
  | cartItem :: rest, total, orderItems, calls =>
    match r.GetProductByID s cartItem.ProductID with
    | .error err =>
      (.error (respond "Error fetching product details" 500 (.text err)),
        calls ++ [.GetProductByID cartItem.ProductID])
    | .ok product =>
      if cartItem.Quantity > product.Quantity then
        (.error (respond "Product out of stock" 400 (.text "Product is out of stock")),
          calls ++ [.GetProductByID cartItem.ProductID])
      else
        placeOrderLoop r s rest (total + (cartItem.Quantity : ℚ) * product.Price)
          (orderItems ++ [{ ID := 0, OrderID := 0, ProductID := cartItem.ProductID,
                            Quantity := cartItem.Quantity, Price := 0 }])
          (calls ++ [.GetProductByID cartItem.ProductID])

/-- Handler `PlaceOrder`. -/
def PlaceOrder {σ : Type} (r : Repository σ) (c : Context) (s : σ) : Outcome σ :=
  match c.GetUserFromContext with
  | .error err => ⟨respond "Error getting user from context" 500 (.text err), s, []⟩
  | .ok user =>
    match r.GetCartsByUserID s user.ID with
    | .error err =>
      ⟨respond "Error fetching cart items" 500 (.text err), s, [.GetCartsByUserID user.ID]⟩
    | .ok cartItems =>
      if cartItems.length = 0 then
        ⟨respond "Cart is empty" 400 (.text "No items in the cart"), s,
          [.GetCartsByUserID user.ID]⟩
      else
        match placeOrderLoop r s cartItems 0 [] [.GetCartsByUserID user.ID] with
        | (.error resp, calls) => ⟨resp, s, calls⟩
        | (.ok (total, orderItems), calls) =>
          let order : Order :=
            { ID := 0, UserID := user.ID, Total := total, Status := "PLACED",
              Items := orderItems }
          match r.CreateOrder s order with
          | (some err, s') =>
            ⟨respond "Error creating order" 500 (.text err), s', calls ++ [.CreateOrder order]⟩
          | (none, s') =>
            ⟨respond "Order placed successfully" 200 .null, s', calls ++ [.CreateOrder order]⟩

/-- Handler `LoginUser`. -/
def LoginUser {σ κ : Type} (r : Repository σ) (m : Middleware κ) (c : Context) (s : σ) :
    Outcome σ :=
  match c.ShouldBindLogin with
  | .error err => ⟨respond "invalid request" 400 (.text err), s, []⟩
  | .ok loginRequest =>
    if loginRequest.Email = "" ∨ loginRequest.Password = "" then
      ⟨respond "Email and Password must not be empty" 400 .null, s, []⟩
    else
      match r.FindUserByEmail s loginRequest.Email with
      | .error err =>
        ⟨respond "Email does not exist" 404 (.text err), s,
          [.FindUserByEmail loginRequest.Email]⟩
      | .ok user =>
        match m.CompareHashAndPassword user.Password loginRequest.Password with
        | .error _ =>
          ⟨respond "invalid email or password" 400 (.text "invalid email or password"), s,
            [.FindUserByEmail loginRequest.Email]⟩
        | .ok _ =>
          let claims := m.GenerateClaims user.Email
          match m.GenerateToken claims.1 c.JWT_SECRET with
          | .error err =>
            ⟨respond "Error generating access token" 500 (.text err), s,
              [.FindUserByEmail loginRequest.Email]⟩
          | .ok accessToken =>
            match m.GenerateToken claims.2 c.JWT_SECRET with
            | .error err =>
              ⟨respond "Error generating refresh token" 500 (.text err), s,
                [.FindUserByEmail loginRequest.Email]⟩
            | .ok refreshToken =>
              ⟨{ message := "Login successful", status := 200,
                 data := .login user accessToken refreshToken,
                 headers := [("access_token", accessToken), ("refresh_token", refreshToken)] },
                s, [.FindUserByEmail loginRequest.Email]⟩

/-- Handler `GetAllProducts`. -/
def GetAllProducts {σ : Type} (r : Repository σ) (c : Context) (s : σ) : Outcome σ :=
  match c.GetUserFromContext with
  | .error err => ⟨respond "invalid token" 401 (.text err), s, []⟩
  | .ok _ =>
    match r.GetAllProducts s with
    | .error err => ⟨respond "Error getting products" 500 (.text err), s, [.GetAllProducts]⟩
    | .ok products => ⟨respond "Success" 200 (.products products), s, [.GetAllProducts]⟩

/-- Handler `GetProductByID`. -/
def GetProductByID {σ : Type} (r : Repository σ) (c : Context) (s : σ) : Outcome σ :=
  match c.GetUserFromContext with
  | .error err => ⟨respond "invalid token" 401 (.text err), s, []⟩
  | .ok _ =>
    match c.ParamID with
    | .error err => ⟨respond "Error getting product" 500 (.text err), s, []⟩
    | .ok id =>
      match r.GetProductByID s (toUint id) with
      | .error err =>
        ⟨respond "Error getting product" 500 (.text err), s, [.GetProductByID (toUint id)]⟩
      | .ok product =>
        ⟨respond "Success" 200 (.product product), s, [.GetProductByID (toUint id)]⟩

/-- The loop of `ViewCart` over the cart lines. -/
def viewCartLoop {σ : Type} (r : Repository σ) (s : σ) :
    List IndividualItemInCart → List CartItem → ℚ → List Call →
      Except Response (List CartItem × ℚ) × List Call
  | [], cart, total, calls => (.ok (cart, total), calls)
  | cartItem :: rest, cart, total, calls =>
    match r.GetProductByID s cartItem.ProductID with
    | .error err =>
      (.error (respond "Error fetching product details" 500 (.text err)),
        calls ++ [.GetProductByID cartItem.ProductID])
    | .ok product =>
      viewCartLoop r s rest
        (cart ++ [{ CartID := cartItem.ID, Product := product, Quantity := cartItem.Quantity }])
        (total + (cartItem.Quantity : ℚ) * product.Price)
        (calls ++ [.GetProductByID cartItem.ProductID])

/-- Handler `ViewCart`. -/
def ViewCart {σ : Type} (r : Repository σ) (c : Context) (s : σ) : Outcome σ :=
  match c.GetUserFromContext with
  | .error err => ⟨respond "Error getting user from context" 500 (.text err), s, []⟩
  | .ok user =>
    match r.GetCartsByUserID s user.ID with
    | .error err =>
      ⟨respond "Internal server error" 500 (.text err), s, [.GetCartsByUserID user.ID]⟩
    | .ok cartItems =>
      if cartItems.length = 0 then
        ⟨respond "Your cart is empty" 404 .null, s, [.GetCartsByUserID user.ID]⟩
      else
        match viewCartLoop r s cartItems [] 0 [.GetCartsByUserID user.ID] with
        | (.error resp, calls) => ⟨resp, s, calls⟩
        | (.ok (cart, total), calls) =>
          ⟨respond "Cart fetched successfully" 200 (.cart cart total), s, calls⟩

/-- Handler `AddToCart`. -/
def AddToCart {σ : Type} (r : Repository σ) (c : Context) (s : σ) : Outcome σ :=
  match c.GetUserFromContext with
  | .error err => ⟨respond "invalid token" 401 (.text err), s, []⟩
  | .ok user =>
    match c.ShouldBindCart with
    | .error err => ⟨respond "invalid request" 401 (.text err), s, []⟩
    | .ok cart =>
      match r.GetProductByID s cart.ProductID with
      | .error err =>
        ⟨respond "product not found" 500 (.text err), s, [.GetProductByID cart.ProductID]⟩
      | .ok product =>
        if cart.Quantity > product.Quantity then
          ⟨respond "product out of stock" 400 .null, s, [.GetProductByID cart.ProductID]⟩
        else
          let cart : IndividualItemInCart := { cart with UserID := user.ID }
          match r.AddToCart s cart with
          | (some err, s') =>
            ⟨respond "error adding product to cart" 500 (.text err), s',
              [.GetProductByID cart.ProductID, .AddToCart cart]⟩
          | (none, s') =>
            ⟨respond "product added to cart" 200 (.product product), s',
              [.GetProductByID cart.ProductID, .AddToCart cart]⟩

/-- Handler `EditCart`. -/
def EditCart {σ : Type} (r : Repository σ) (c : Context) (s : σ) : Outcome σ :=
  match c.GetUserFromContext with
  | .error err => ⟨respond "invalid token" 401 (.text err), s, []⟩
  | .ok user =>
    match c.ShouldBindCart with
    | .error err => ⟨respond "invalid request" 401 (.text err), s, []⟩
    | .ok cart =>
      match r.GetCartItemByProductID s cart.ProductID with
      | .error err =>
        ⟨respond "Cart not found" 404 (.text err), s, [.GetCartItemByProductID cart.ProductID]⟩
      | .ok shoppingCart =>
        match r.GetProductByID s cart.ProductID with
        | .error err =>
          ⟨respond "product not found" 500 (.text err), s,
            [.GetCartItemByProductID cart.ProductID, .GetProductByID cart.ProductID]⟩
        | .ok product =>
          if cart.Quantity > product.Quantity then
            ⟨respond "not enough products" 400 .null, s,
              [.GetCartItemByProductID cart.ProductID, .GetProductByID cart.ProductID]⟩
          else
            let cart : IndividualItemInCart :=
              { cart with UserID := user.ID, ID := shoppingCart.ID }
            match r.AddToCart s cart with
            | (some err, s') =>
              ⟨respond "Error editing product quantity." 500 (.text err), s',
                [.GetCartItemByProductID cart.ProductID, .GetProductByID cart.ProductID,
                  .AddToCart cart]⟩
            | (none, s') =>
              ⟨respond "product successfully added" 200 .null, s',
                [.GetCartItemByProductID cart.ProductID, .GetProductByID cart.ProductID,
                  .AddToCart cart]⟩

/-- Handler `DeleteProductFromCart`.  The user returned by `GetUserFromContext`
is discarded (`_, err := ...`). -/
def DeleteProductFromCart {σ : Type} (r : Repository σ) (c : Context) (s : σ) : Outcome σ :=
  match c.GetUserFromContext with
  | .error err => ⟨respond "Error getting user from context" 500 (.text err), s, []⟩
  | .ok _ =>
    match c.ParamID with
    | .error err => ⟨respond "Invalid product ID" 400 (.text err), s, []⟩
    | .ok productIDInt =>
      match r.GetCartItemByProductID s (toUint productIDInt) with
      | .error err =>
        ⟨respond "Product not found" 404 (.text err), s,
          [.GetCartItemByProductID (toUint productIDInt)]⟩
      | .ok shoppingCart =>
        match r.DeleteProductFromCart s shoppingCart with
        | (some err, s') =>
          ⟨respond "Internal server error" 500 (.text err), s',
            [.GetCartItemByProductID (toUint productIDInt), .DeleteProductFromCart shoppingCart]⟩
        | (none, s') =>
          ⟨respond "Product deleted from cart" 200 .null, s',
            [.GetCartItemByProductID (toUint productIDInt), .DeleteProductFromCart shoppingCart]⟩

/-- The loop of `OrderHistory` over the orders found. -/
def orderHistoryLoop {σ : Type} (r : Repository σ) (s : σ) :
    List Order → List Order → List Call → Except Response (List Order) × List Call
  | [], orderDetails, calls => (.ok orderDetails, calls)
  | order :: rest, orderDetails, calls =>
    match r.GetOrderItemsByOrderID s order.ID with
    | .error err =>
      (.error (respond "Internal server error" 500 (.text err)),
        calls ++ [.GetOrderItemsByOrderID order.ID])
    | .ok orderItems =>
      orderHistoryLoop r s rest (orderDetails ++ [{ order with Items := orderItems }])
        (calls ++ [.GetOrderItemsByOrderID order.ID])

/-- Handler `OrderHistory`. -/
def OrderHistory {σ : Type} (r : Repository σ) (c : Context) (s : σ) : Outcome σ :=
  match c.GetUserFromContext with
  | .error err => ⟨respond "Error finding user in context" 500 (.text err), s, []⟩
  | .ok user =>
    match r.OrderHistorybyUserID s user.ID with
    | .error err =>
      ⟨respond "Order not found" 404 (.text err), s, [.OrderHistorybyUserID user.ID]⟩
    | .ok orders =>
      match orderHistoryLoop r s orders [] [.OrderHistorybyUserID user.ID] with
      | (.error resp, calls) => ⟨resp, s, calls⟩
      | (.ok orderDetails, calls) =>
        ⟨respond "Orders fetched" 200 (.orders orderDetails), s, calls⟩

/-! ## Quantities the statements speak about -/

/-- The order item the loop of `PlaceOrder` builds for a cart line: the line's
product and quantity, every other field zero. -/
def orderItemOf (line : IndividualItemInCart) : OrderItem :=
  { ID := 0, OrderID := 0, ProductID := line.ProductID, Quantity := line.Quantity, Price := 0 }

/-- A cart line passes the stock validation in store `s`: the product lookup
succeeds and the quantity is at most the available quantity. -/
def lineInStock {σ : Type} (r : Repository σ) (s : σ) (line : IndividualItemInCart) : Prop :=
  ∃ product, r.GetProductByID s line.ProductID = .ok product ∧ line.Quantity ≤ product.Quantity

/-- The price the repository returns for a product in store `s` (zero when the
lookup fails). -/
def priceOf {σ : Type} (r : Repository σ) (s : σ) (productID : Nat) : ℚ :=
  match r.GetProductByID s productID with
  | .ok product => product.Price
  | .error _ => 0

/-- The available quantity the repository returns for a product in store `s`,
when the lookup succeeds. -/
def stockOf {σ : Type} (r : Repository σ) (s : σ) (productID : Nat) : Option Int :=
  match r.GetProductByID s productID with
  | .ok product => some product.Quantity
  | .error _ => none

/-- Sum over the cart lines of quantity times the price read in store `s`. -/
def cartTotal {σ : Type} (r : Repository σ) (s : σ) (lines : List IndividualItemInCart) : ℚ :=
  (lines.map (fun line => (line.Quantity : ℚ) * priceOf r s line.ProductID)).sum

/-- The order `PlaceOrder` prepares for a user from validated cart lines. -/
def orderOf {σ : Type} (r : Repository σ) (s : σ) (user : User)
    (lines : List IndividualItemInCart) : Order :=
  { ID := 0, UserID := user.ID, Total := cartTotal r s lines, Status := "PLACED",
    Items := lines.map orderItemOf }

/-- The order items as the spec words them: one item per cart line, in cart
order, with the line's product, the line's quantity and the price read for the
line in store `s`. -/
def pricedItems {σ : Type} (r : Repository σ) (s : σ) (lines : List IndividualItemInCart) :
    List OrderItem :=
  lines.map (fun line => { orderItemOf line with Price := priceOf r s line.ProductID })

/-- The orders handed to `Repository.CreateOrder` in a list of calls. -/
def createdOrders : List Call → List Order
  | [] => []
  | .CreateOrder order :: rest => order :: createdOrders rest
  | _ :: rest => createdOrders rest

/-- The cart lines handed to `Repository.AddToCart` in a list of calls. -/
def storedLines : List Call → List IndividualItemInCart
  | [] => []
  | .AddToCart cart :: rest => cart :: storedLines rest
  | _ :: rest => storedLines rest

/-- The orders a run of `PlaceOrder` placed successfully: the order handed to
`CreateOrder` when the response is 200, nothing otherwise. -/
def placedBy {σ : Type} (o : Outcome σ) : List Order :=
  if o.response.status = 200 then createdOrders o.calls else []

/-- Total quantity of product `p` over a list of order items. -/
def itemsQty (p : Nat) : List OrderItem → Int
  | [] => 0
  | item :: rest => (if item.ProductID = p then item.Quantity else 0) + itemsQty p rest

/-- Total quantity of product `p` over a list of orders. -/
def ordersQty (p : Nat) : List Order → Int
  | [] => 0
  | order :: rest => itemsQty p order.Items + ordersQty p rest

/-- A sequence of `PlaceOrder` requests run one after the other from store `s`:
the final store and the orders placed successfully, in order. -/
def placeOrders {σ : Type} (r : Repository σ) : σ → List Context → σ × List Order
  | s, [] => (s, [])
  | s, c :: rest =>
    let o := PlaceOrder r c s
    let tail := placeOrders r o.store rest
    (tail.1, placedBy o ++ tail.2)

/-- The login of `req` goes through in store `s`: both fields are non-empty,
the email is found, the password verifies against the stored hash, and both
tokens are signed from the claims generated for the found user's email. -/
def loginSucceeds {σ κ : Type} (r : Repository σ) (m : Middleware κ) (c : Context) (s : σ)
    (req : LoginRequestUser) (user : User) (access refresh : String) : Prop :=
  req.Email ≠ "" ∧ req.Password ≠ "" ∧
    r.FindUserByEmail s req.Email = .ok user ∧
    m.CompareHashAndPassword user.Password req.Password = .ok () ∧
    m.GenerateToken (m.GenerateClaims user.Email).1 c.JWT_SECRET = .ok access ∧
    m.GenerateToken (m.GenerateClaims user.Email).2 c.JWT_SECRET = .ok refresh

/-! ## An in-memory repository -/

/-- Modelled from the spec: the persistent store behind `Repository`, which is
not in the handler file: users, the Stock Ledger (product to available quantity
and unit price), the Cart Store (rows of user, product, quantity) and the orders
persisted so far. -/
structure Store where
  users : List User
  products : List Product
  carts : List IndividualItemInCart
  orders : List Order
deriving DecidableEq, Repr

/-- Modelled from the spec: lookup of a product in the Stock Ledger by its
identifier (`Repository.GetProductByID` is not in the handler file). -/
def findProduct : List Product → Nat → Option Product
  | [], _ => none
  | p :: ps, id => if p.ID = id then some p else findProduct ps id

/-- The available quantity the Stock Ledger holds for product `p`. -/
def ledgerQty (ps : List Product) (p : Nat) : Option Int :=
  (findProduct ps p).map (fun product => product.Quantity)

/-- Modelled from the spec: the conditional update of the Stock Ledger,
"decrement quantity by N where quantity >= N" (section 5 (b), section 9); it is
not in the handler file.  The answer is `none` when the update affects no
row. -/
def decrementStock : List Product → Nat → Int → Option (List Product)
  | [], _, _ => none
  | p :: ps, id, n =>
    if p.ID = id then
      if p.Quantity ≥ n then some ({ p with Quantity := p.Quantity - n } :: ps) else none
    else
      match decrementStock ps id n with
      | some ps' => some (p :: ps')
      | none => none

/-- Modelled from the spec: the conditional update applied to every line of an
order; the whole commit is aborted when one line affects no row (section 5
(b)).  It is not in the handler file. -/
def decrementAll : List Product → List OrderItem → Option (List Product)
  | ps, [] => some ps
  | ps, item :: rest =>
    match decrementStock ps item.ProductID item.Quantity with
    | some ps' => decrementAll ps' rest
    | none => none

/-- The largest cart row identifier in use. -/
def maxCartID : List IndividualItemInCart → Nat
  | [] => 0
  | line :: rest => max line.ID (maxCartID rest)

/-- Modelled from the spec: the upsert behind `Repository.AddToCart`, which is
not in the handler file: one row per (user, product) pair, adding the same
product again replaces the quantity of the row instead of duplicating it. -/
def upsertCart (carts : List IndividualItemInCart) (cart : IndividualItemInCart) :
    List IndividualItemInCart :=
  if carts.any (fun line => line.UserID = cart.UserID ∧ line.ProductID = cart.ProductID) then
    carts.map (fun line =>
      if line.UserID = cart.UserID ∧ line.ProductID = cart.ProductID then
        { line with Quantity := cart.Quantity }
      else line)
  else
    carts ++ [{ cart with ID := maxCartID carts + 1 }]

/-- Modelled from the spec: an implementation of `Repository` over `Store`; the
implementation used by the program is not in the handler file.  Reads answer
from the lists; `GetCartItemByProductID` has the product identifier as its only
argument and answers with the first cart row of that product;
`DeleteProductFromCart` removes the row it is given; `CreateOrder` is the
all-or-nothing commit of section 4.4: conditional stock decrement for every
line, persist the order, clear the cart of the order's user. -/
def memRepo : Repository Store where
  FindUserByEmail s email :=
    match s.users.find? (fun u => u.Email = email) with
    | some u => .ok u
    | none => .error "record not found"
  GetAllProducts s := .ok s.products
  GetProductByID s id :=
    match findProduct s.products id with
    | some p => .ok p
    | none => .error "record not found"
  GetCartsByUserID s id := .ok (s.carts.filter (fun line => line.UserID = id))
  GetCartItemByProductID s id :=
    match s.carts.find? (fun line => line.ProductID = id) with
    | some line => .ok line
    | none => .error "record not found"
  OrderHistorybyUserID s id := .ok (s.orders.filter (fun o => o.UserID = id))
  GetOrderItemsByOrderID s id :=
    .ok ((s.orders.filter (fun o => o.ID = id)).flatMap (fun o => o.Items))
  AddToCart s cart := (none, { s with carts := upsertCart s.carts cart })
  DeleteProductFromCart s cart :=
    (none, { s with carts := s.carts.filter (fun line => line.ID ≠ cart.ID) })
  CreateOrder s order :=
    match decrementAll s.products order.Items with
    | none => (some "insufficient stock", s)
    | some ps =>
      (none, { s with products := ps
                      carts := s.carts.filter (fun line => line.UserID ≠ order.UserID)
                      orders := s.orders ++ [{ order with ID := s.orders.length + 1 }] })

/-! ## Concrete requests and stores -/

/-- A request authenticated as the user with identifier `uid`. -/
def requestOf (uid : Nat) : Context :=
  { GetUserFromContext := .ok { ID := uid, Email := "u@example.com", Password := "hash" }
    ShouldBindLogin := .error "EOF"
    ShouldBindCart := .error "EOF"
    ParamID := .error "invalid syntax"
    JWT_SECRET := "secret" }

/-- Products A (id 1, price 10, stock 5) and B (id 2, price 5, stock 5); the
cart of user 1 holds 2 of A and 1 of B. -/
def storeTwoLines : Store :=
  { users := []
    products := [{ ID := 1, Price := 10, Quantity := 5 }, { ID := 2, Price := 5, Quantity := 5 }]
    carts := [{ ID := 1, UserID := 1, ProductID := 1, Quantity := 2 },
              { ID := 2, UserID := 1, ProductID := 2, Quantity := 1 }]
    orders := [] }

/-- Products A (id 1, stock 3) and B (id 2, stock 5); the cart of user 1 holds 1
of B, within stock, and then 10 of A. -/
def storeShortStock : Store :=
  { users := []
    products := [{ ID := 1, Price := 10, Quantity := 3 }, { ID := 2, Price := 5, Quantity := 5 }]
    carts := [{ ID := 1, UserID := 1, ProductID := 2, Quantity := 1 },
              { ID := 2, UserID := 1, ProductID := 1, Quantity := 10 }]
    orders := [] }

/-- One unit of product A (id 1) is left; users 1 and 2 each hold one unit of A
in their cart. -/
def storeLastUnit : Store :=
  { users := []
    products := [{ ID := 1, Price := 10, Quantity := 1 }]
    carts := [{ ID := 1, UserID := 1, ProductID := 1, Quantity := 1 },
              { ID := 2, UserID := 2, ProductID := 1, Quantity := 1 }]
    orders := [] }

/-- The only cart line belongs to user 2 and holds product 7 (stock 5). -/
def storeOtherUser : Store :=
  { users := []
    products := [{ ID := 7, Price := 3, Quantity := 5 }]
    carts := [{ ID := 1, UserID := 2, ProductID := 7, Quantity := 1 }]
    orders := [] }

/-- Product A (id 1, stock 5) is on sale and no user has a cart line. -/
def storeNoCart : Store :=
  { users := []
    products := [{ ID := 1, Price := 10, Quantity := 5 }]
    carts := []
    orders := [] }

/-- User 1 asks to delete product 7 from the cart. -/
def deleteRequest : Context :=
  { requestOf 1 with ParamID := .ok 7 }

/-- User 1 sends a cart body for product `pid` with quantity `q`. -/
def cartRequest (pid : Nat) (q : Int) : Context :=
  { requestOf 1 with
    ShouldBindCart := .ok { ID := 0, UserID := 0, ProductID := pid, Quantity := q } }

/-- A stand-in for `middleware` and `bcrypt` on which `LoginUser` can be run:
the claim set of a subject is the subject tagged with its token class, a token
is the claim set followed by the secret, and a password verifies against the
hash that equals it. -/
def testMiddleware : Middleware (String × String) where
  GenerateClaims email := (("access", email), ("refresh", email))
  GenerateToken claims secret := .ok (claims.1 ++ ":" ++ claims.2 ++ ":" ++ secret)
  CompareHashAndPassword hash password :=
    if hash = password then .ok () else .error "hashedPassword is not the hash of the given password"

/-- A store with one registered user. -/
def storeOneUser : Store :=
  { users := [{ ID := 1, Email := "ada@example.com", Password := "pw" }]
    products := []
    carts := []
    orders := [] }

/-- A login request for the registered user. -/
def loginRequest : Context :=
  { requestOf 0 with
    GetUserFromContext := .error "no token"
    ShouldBindLogin := .ok { Email := "ada@example.com", Password := "pw" } }

/-! ## The loop of `PlaceOrder` -/

theorem createdOrders_append (xs ys : List Call) :
    createdOrders (xs ++ ys) = createdOrders xs ++ createdOrders ys := by
  induction xs with
  | nil => rfl
  | cons x xs ih => cases x <;> simp [createdOrders, ih]

theorem createdOrders_reads (ids : List Nat) :
    createdOrders (ids.map Call.GetProductByID) = [] := by
  induction ids with
  | nil => rfl
  | cons x xs ih => simpa [createdOrders] using ih

theorem isWrite_reads (ids : List Nat) :
    ∀ call ∈ ids.map Call.GetProductByID, call.isWrite = false := by
  intro call h
  obtain ⟨id, -, rfl⟩ := List.mem_map.1 h
  rfl

/-- The loop only adds product lookups to the calls. -/
theorem placeOrderLoop_calls {σ : Type} (r : Repository σ) (s : σ)
    (lines : List IndividualItemInCart) :
    ∀ (total : ℚ) (orderItems : List OrderItem) (calls : List Call),
      ∃ ids : List Nat,
        (placeOrderLoop r s lines total orderItems calls).2 = calls ++ ids.map Call.GetProductByID := by
  induction lines with
  | nil => intro total orderItems calls; exact ⟨[], by simp [placeOrderLoop]⟩
  | cons line rest ih =>
    intro total orderItems calls
    unfold placeOrderLoop
    cases hp : r.GetProductByID s line.ProductID with
    | error err => exact ⟨[line.ProductID], by simp⟩
    | ok product =>
      by_cases hq : line.Quantity > product.Quantity
      · exact ⟨[line.ProductID], by simp [hq]⟩
      · obtain ⟨ids, hids⟩ := ih (total + (line.Quantity : ℚ) * product.Price)
          (orderItems ++ [{ ID := 0, OrderID := 0, ProductID := line.ProductID,
                            Quantity := line.Quantity, Price := 0 }])
          (calls ++ [.GetProductByID line.ProductID])
        exact ⟨line.ProductID :: ids, by simp [hq, hids]⟩

/-- When every line passes the validation the loop returns the summed total and
one order item per line, in cart order. -/
theorem placeOrderLoop_ok {σ : Type} (r : Repository σ) (s : σ)
    (lines : List IndividualItemInCart) :
    ∀ (total : ℚ) (orderItems : List OrderItem) (calls : List Call),
      (∀ line ∈ lines, lineInStock r s line) →
      placeOrderLoop r s lines total orderItems calls =
        (.ok (total + cartTotal r s lines, orderItems ++ lines.map orderItemOf),
          calls ++ lines.map (fun line => Call.GetProductByID line.ProductID)) := by
  induction lines with
  | nil => intro total orderItems calls _; simp [placeOrderLoop, cartTotal]
  | cons line rest ih =>
    intro total orderItems calls h
    obtain ⟨product, hp, hq⟩ := h line (List.mem_cons_self _ _)
    have hrest : ∀ l ∈ rest, lineInStock r s l := fun l hl => h l (List.mem_cons_of_mem _ hl)
    unfold placeOrderLoop
    simp only [hp, gt_iff_lt, not_lt.2 hq, if_false]
    rw [ih _ _ _ hrest]
    simp [cartTotal, priceOf, hp, orderItemOf, add_assoc]

/-- When the loop returns a total, every line passed the validation. -/
theorem placeOrderLoop_ok_inv {σ : Type} (r : Repository σ) (s : σ)
    (lines : List IndividualItemInCart) :
    ∀ (total : ℚ) (orderItems : List OrderItem) (calls : List Call) (x : ℚ × List OrderItem),
      (placeOrderLoop r s lines total orderItems calls).1 = .ok x →
      ∀ line ∈ lines, lineInStock r s line := by
  induction lines with
  | nil => intro _ _ _ _ _ line hl; cases hl
  | cons line rest ih =>
    intro total orderItems calls x hx
    unfold placeOrderLoop at hx
    cases hp : r.GetProductByID s line.ProductID with
    | error err => simp [hp] at hx
    | ok product =>
      by_cases hq : line.Quantity > product.Quantity
      · simp [hp, hq] at hx
      · simp only [hp, hq, if_false] at hx
        intro l hl
        rcases List.mem_cons.1 hl with rfl | hl
        · exact ⟨product, hp, not_lt.1 hq⟩
        · exact ih _ _ _ _ hx l hl

/-- When every lookup succeeds and some line exceeds the stock, the loop stops
with the out-of-stock response. -/
theorem placeOrderLoop_short {σ : Type} (r : Repository σ) (s : σ)
    (lines : List IndividualItemInCart) :
    ∀ (total : ℚ) (orderItems : List OrderItem) (calls : List Call),
      (∀ line ∈ lines, ∃ product, r.GetProductByID s line.ProductID = .ok product) →
      (∃ line ∈ lines, ∃ product,
        r.GetProductByID s line.ProductID = .ok product ∧ line.Quantity > product.Quantity) →
      (placeOrderLoop r s lines total orderItems calls).1 =
        .error (respond "Product out of stock" 400 (.text "Product is out of stock")) := by
  induction lines with
  | nil => intro _ _ _ _ h; obtain ⟨line, hl, -⟩ := h; cases hl
  | cons line rest ih =>
    intro total orderItems calls hlook hshort
    obtain ⟨product, hp⟩ := hlook line (List.mem_cons_self _ _)
    unfold placeOrderLoop
    by_cases hq : line.Quantity > product.Quantity
    · simp [hp, hq]
    · simp only [hp, hq, if_false]
      apply ih _ _ _ (fun l hl => hlook l (List.mem_cons_of_mem _ hl))
      obtain ⟨l, hl, p', hp', hq'⟩ := hshort
      rcases List.mem_cons.1 hl with rfl | hl
      · rw [hp] at hp'
        cases hp'
        exact absurd hq' hq
      · exact ⟨l, hl, p', hp', hq'⟩

/-- A response with which the loop stops is never a 200. -/
theorem placeOrderLoop_error_status {σ : Type} (r : Repository σ) (s : σ)
    (lines : List IndividualItemInCart) :
    ∀ (total : ℚ) (orderItems : List OrderItem) (calls : List Call) (resp : Response),
      (placeOrderLoop r s lines total orderItems calls).1 = .error resp →
      resp.status = 500 ∨ resp.status = 400 := by
  induction lines with
  | nil => intro _ _ _ _ h; simp [placeOrderLoop] at h
  | cons line rest ih =>
    intro total orderItems calls resp h
    unfold placeOrderLoop at h
    cases hp : r.GetProductByID s line.ProductID with
    | error err =>
      simp only [hp] at h
      cases h
      exact Or.inl rfl
    | ok product =>
      by_cases hq : line.Quantity > product.Quantity
      · simp only [hp, hq, if_true] at h
        cases h
        exact Or.inr rfl
      · simp only [hp, hq, if_false] at h
        exact ih _ _ _ _ h

/-! ## `PlaceOrder` -/

/-- On a non-empty cart whose lines all pass the validation, `PlaceOrder` reads
the cart, reads every product once, in cart order, and hands `orderOf` to
`CreateOrder`; the response is 200 exactly when `CreateOrder` reports no
error. -/
theorem PlaceOrder_valid {σ : Type} (r : Repository σ) (c : Context) (s : σ) (user : User)
    (lines : List IndividualItemInCart)
    (hauth : c.GetUserFromContext = .ok user)
    (hcart : r.GetCartsByUserID s user.ID = .ok lines)
    (hne : lines ≠ [])
    (hvalid : ∀ line ∈ lines, lineInStock r s line) :
    (PlaceOrder r c s).calls =
        Call.GetCartsByUserID user.ID ::
          (lines.map (fun line => Call.GetProductByID line.ProductID) ++
            [Call.CreateOrder (orderOf r s user lines)]) ∧
      (PlaceOrder r c s).store = (r.CreateOrder s (orderOf r s user lines)).2 ∧
      ((PlaceOrder r c s).response.status = 200 ↔
        (r.CreateOrder s (orderOf r s user lines)).1 = none) := by
  have hlen : lines.length ≠ 0 := fun h => hne (List.length_eq_zero.1 h)
  unfold PlaceOrder
  simp only [hauth, hcart, hlen, if_false]
  rw [placeOrderLoop_ok r s lines 0 [] _ hvalid]
  simp only [zero_add, List.nil_append]
  rcases hco : r.CreateOrder s
      { ID := 0, UserID := user.ID, Total := cartTotal r s lines, Status := "PLACED",
        Items := lines.map orderItemOf } with ⟨_ | err, s'⟩
  · simp [orderOf, hco, respond]
  · simp [orderOf, hco, respond]

/-- A 200 from `PlaceOrder` means the cart was non-empty and every line passed
the validation. -/
theorem PlaceOrder_ok_inv {σ : Type} (r : Repository σ) (c : Context) (s : σ) (user : User)
    (lines : List IndividualItemInCart)
    (hauth : c.GetUserFromContext = .ok user)
    (hcart : r.GetCartsByUserID s user.ID = .ok lines)
    (hok : (PlaceOrder r c s).response.status = 200) :
    lines ≠ [] ∧ ∀ line ∈ lines, lineInStock r s line := by
  unfold PlaceOrder at hok
  simp only [hauth, hcart] at hok
  by_cases hlen : lines.length = 0
  · simp [hlen, respond] at hok
  · simp only [hlen, if_false] at hok
    refine ⟨fun h => hlen (by simp [h]), ?_⟩
    rcases hloop : placeOrderLoop r s lines 0 [] [Call.GetCartsByUserID user.ID]
      with ⟨resp | x, calls⟩
    · have h1 := placeOrderLoop_error_status r s lines 0 [] [Call.GetCartsByUserID user.ID] resp
        (by rw [hloop])
      simp only [hloop] at hok
      rcases h1 with h1 | h1 <;> rw [h1] at hok <;> cases hok
    · exact placeOrderLoop_ok_inv r s lines 0 [] [Call.GetCartsByUserID user.ID] x
        (by rw [hloop])

/-- C1. For a user whose cart is non-empty and whose product lookups all
succeed, if some cart line (anywhere in the cart) asks for more than the
product's available quantity, `PlaceOrder` answers 400, hands no order to
`CreateOrder`, issues no write call, and leaves the store as it was, so the
cart read back is the same cart. -/
theorem placeOrder_insufficient_stock {σ : Type} (r : Repository σ) (c : Context) (s : σ)
    (user : User) (lines : List IndividualItemInCart)
    (hauth : c.GetUserFromContext = .ok user)
    (hcart : r.GetCartsByUserID s user.ID = .ok lines)
    (hne : lines ≠ [])
    (hlook : ∀ line ∈ lines, ∃ product, r.GetProductByID s line.ProductID = .ok product)
    (hshort : ∃ line ∈ lines, ∃ product,
      r.GetProductByID s line.ProductID = .ok product ∧ line.Quantity > product.Quantity) :
    (PlaceOrder r c s).response.status = 400 ∧
      createdOrders (PlaceOrder r c s).calls = [] ∧
      (∀ call ∈ (PlaceOrder r c s).calls, call.isWrite = false) ∧
      (PlaceOrder r c s).store = s ∧
      r.GetCartsByUserID (PlaceOrder r c s).store user.ID = .ok lines := by
  have hlen : lines.length ≠ 0 := fun h => hne (List.length_eq_zero.1 h)
  have h1 := placeOrderLoop_short r s lines 0 [] [Call.GetCartsByUserID user.ID] hlook hshort
  obtain ⟨ids, h2⟩ := placeOrderLoop_calls r s lines 0 [] [Call.GetCartsByUserID user.ID]
  have hout : PlaceOrder r c s =
      ⟨respond "Product out of stock" 400 (.text "Product is out of stock"), s,
        [Call.GetCartsByUserID user.ID] ++ ids.map Call.GetProductByID⟩ := by
    unfold PlaceOrder
    simp only [hauth, hcart, hlen, if_false]
    rcases hloop : placeOrderLoop r s lines 0 [] [Call.GetCartsByUserID user.ID]
      with ⟨resp | x, calls⟩
    · rw [hloop] at h1 h2
      simp only at h1 h2
      cases h1
      rw [h2]
    · rw [hloop] at h1
      cases h1
  rw [hout]
  refine ⟨rfl, ?_, ?_, rfl, hcart⟩
  · simp [createdOrders_append, createdOrders_reads, createdOrders]
  · intro call hcall
    rcases List.mem_append.1 hcall with h | h
    · rw [List.mem_singleton.1 h]; rfl
    · exact isWrite_reads ids call h

/-- C2. For a non-empty cart whose lines all have a successful product lookup
and a quantity within the available stock, `PlaceOrder` hands exactly one order
to `CreateOrder`; its `UserID` is the authenticated user's, its `Status` is
"PLACED" and its `Total` is the sum over the cart lines of quantity times the
price read in that pass. -/
theorem placeOrder_order_header {σ : Type} (r : Repository σ) (c : Context) (s : σ)
    (user : User) (lines : List IndividualItemInCart)
    (hauth : c.GetUserFromContext = .ok user)
    (hcart : r.GetCartsByUserID s user.ID = .ok lines)
    (hne : lines ≠ [])
    (hvalid : ∀ line ∈ lines, ∃ product,
      r.GetProductByID s line.ProductID = .ok product ∧ line.Quantity ≤ product.Quantity) :
    ∃ order, createdOrders (PlaceOrder r c s).calls = [order] ∧
      order.UserID = user.ID ∧ order.Status = "PLACED" ∧
      order.Total =
        (lines.map (fun line => (line.Quantity : ℚ) * priceOf r s line.ProductID)).sum := by
  obtain ⟨hcalls, -, -⟩ := PlaceOrder_valid r c s user lines hauth hcart hne hvalid
  refine ⟨orderOf r s user lines, ?_, rfl, rfl, rfl⟩
  rw [hcalls]
  have h := createdOrders_reads (lines.map (fun line => line.ProductID))
  rw [List.map_map] at h
  have h' : (lines.map (fun line => Call.GetProductByID line.ProductID)) =
      lines.map (Call.GetProductByID ∘ fun line => line.ProductID) := rfl
  simp [createdOrders, createdOrders_append, h', h]

/-- C3. When the cart lookup of an authenticated user succeeds with an empty
list, `PlaceOrder` answers 400 "Cart is empty"; its only repository call is the
cart lookup, so it reads no product and hands no order to `CreateOrder`, and the
store is left as it was. -/
theorem placeOrder_empty_cart {σ : Type} (r : Repository σ) (c : Context) (s : σ)
    (user : User)
    (hauth : c.GetUserFromContext = .ok user)
    (hcart : r.GetCartsByUserID s user.ID = .ok []) :
    (PlaceOrder r c s).response.status = 400 ∧
      (PlaceOrder r c s).response.message = "Cart is empty" ∧
      (PlaceOrder r c s).calls = [Call.GetCartsByUserID user.ID] ∧
      createdOrders (PlaceOrder r c s).calls = [] ∧
      (PlaceOrder r c s).store = s := by
  unfold PlaceOrder
  simp [hauth, hcart, respond, createdOrders]

/-- Every order `PlaceOrder` hands to `CreateOrder` is `orderOf` of the
authenticated user and the cart read, and the cart passed the validation. -/
theorem PlaceOrder_created {σ : Type} (r : Repository σ) (c : Context) (s : σ) (order : Order)
    (h : order ∈ createdOrders (PlaceOrder r c s).calls) :
    ∃ user lines, c.GetUserFromContext = .ok user ∧ r.GetCartsByUserID s user.ID = .ok lines ∧
      lines ≠ [] ∧ (∀ line ∈ lines, lineInStock r s line) ∧ order = orderOf r s user lines := by
  cases hauth : c.GetUserFromContext with
  | error err => simp [PlaceOrder, hauth, createdOrders] at h
  | ok user =>
    cases hcart : r.GetCartsByUserID s user.ID with
    | error err => simp [PlaceOrder, hauth, hcart, createdOrders] at h
    | ok lines =>
      by_cases hlen : lines.length = 0
      · simp [PlaceOrder, hauth, hcart, hlen, createdOrders] at h
      · have hne : lines ≠ [] := fun h0 => hlen (by simp [h0])
        obtain ⟨ids, hids⟩ := placeOrderLoop_calls r s lines 0 [] [Call.GetCartsByUserID user.ID]
        rcases hloop : placeOrderLoop r s lines 0 [] [Call.GetCartsByUserID user.ID]
          with ⟨resp | x, calls⟩
        · rw [hloop] at hids
          simp only at hids
          unfold PlaceOrder at h
          simp only [hauth, hcart, hlen, if_false, hloop] at h
          rw [hids] at h
          simp [createdOrders_append, createdOrders_reads, createdOrders] at h
        · have hvalid := placeOrderLoop_ok_inv r s lines 0 [] [Call.GetCartsByUserID user.ID] x
            (by rw [hloop])
          obtain ⟨hcalls, -, -⟩ := PlaceOrder_valid r c s user lines hauth hcart hne hvalid
          rw [hcalls] at h
          have h0 := createdOrders_reads (lines.map (fun line => line.ProductID))
          rw [List.map_map] at h0
          have h1 : (lines.map (fun line => Call.GetProductByID line.ProductID)) =
              lines.map (Call.GetProductByID ∘ fun line => line.ProductID) := rfl
          simp [createdOrders, createdOrders_append, h1, h0] at h
          exact ⟨user, lines, rfl, hcart, hne, hvalid, h⟩

/-- C5, as amended. For every successful `PlaceOrder`, the order handed to
`CreateOrder` has exactly one item per cart line, in cart order, and each item
carries that line's product reference and that line's quantity; the handler
records no price on the item (the field keeps its zero value). -/
theorem placeOrder_items {σ : Type} (r : Repository σ) (c : Context) (s : σ)
    (user : User) (lines : List IndividualItemInCart)
    (hauth : c.GetUserFromContext = .ok user)
    (hcart : r.GetCartsByUserID s user.ID = .ok lines)
    (hok : (PlaceOrder r c s).response.status = 200) :
    ∃ order, createdOrders (PlaceOrder r c s).calls = [order] ∧
      order.Items.length = lines.length ∧
      order.Items =
        lines.map (fun line =>
          { ID := 0, OrderID := 0, ProductID := line.ProductID, Quantity := line.Quantity,
            Price := 0 }) := by
  obtain ⟨hne, hvalid⟩ := PlaceOrder_ok_inv r c s user lines hauth hcart hok
  obtain ⟨hcalls, -, -⟩ := PlaceOrder_valid r c s user lines hauth hcart hne hvalid
  refine ⟨orderOf r s user lines, ?_, by simp [orderOf], rfl⟩
  rw [hcalls]
  have h0 := createdOrders_reads (lines.map (fun line => line.ProductID))
  rw [List.map_map] at h0
  have h1 : (lines.map (fun line => Call.GetProductByID line.ProductID)) =
      lines.map (Call.GetProductByID ∘ fun line => line.ProductID) := rfl
  simp [createdOrders, createdOrders_append, h1, h0]

/-! ## `AddToCart` and `EditCart` -/

/-- Every line `AddToCart` hands to `Repository.AddToCart` is the bound body
with the user's identifier, after a successful product lookup that found enough
stock. -/
theorem AddToCart_stored {σ : Type} (r : Repository σ) (c : Context) (s : σ)
    (line : IndividualItemInCart) (h : line ∈ storedLines (AddToCart r c s).calls) :
    ∃ user cart product, c.GetUserFromContext = .ok user ∧ c.ShouldBindCart = .ok cart ∧
      r.GetProductByID s cart.ProductID = .ok product ∧ cart.Quantity ≤ product.Quantity ∧
      line = { cart with UserID := user.ID } := by
  unfold AddToCart at h
  cases hauth : c.GetUserFromContext with
  | error err => simp [hauth, storedLines] at h
  | ok user =>
    cases hbind : c.ShouldBindCart with
    | error err => simp [hauth, hbind, storedLines] at h
    | ok cart =>
      cases hp : r.GetProductByID s cart.ProductID with
      | error err => simp [hauth, hbind, hp, storedLines] at h
      | ok product =>
        by_cases hq : cart.Quantity > product.Quantity
        · simp [hauth, hbind, hp, hq, storedLines] at h
        · simp only [hauth, hbind, hp, hq, if_false] at h
          rcases hw : r.AddToCart s { cart with UserID := user.ID } with ⟨_ | err, s'⟩ <;>
            simp only [hw, storedLines, List.mem_singleton] at h <;>
            exact ⟨user, cart, product, rfl, rfl, hp, not_lt.1 hq, h⟩

/-- Every line `EditCart` hands to `Repository.AddToCart` is the bound body
with the user's identifier and the identifier of the cart row found, after a
successful product lookup that found enough stock. -/
theorem EditCart_stored {σ : Type} (r : Repository σ) (c : Context) (s : σ)
    (line : IndividualItemInCart) (h : line ∈ storedLines (EditCart r c s).calls) :
    ∃ user cart shoppingCart product,
      c.GetUserFromContext = .ok user ∧ c.ShouldBindCart = .ok cart ∧
      r.GetCartItemByProductID s cart.ProductID = .ok shoppingCart ∧
      r.GetProductByID s cart.ProductID = .ok product ∧ cart.Quantity ≤ product.Quantity ∧
      line = { cart with UserID := user.ID, ID := shoppingCart.ID } := by
  unfold EditCart at h
  cases hauth : c.GetUserFromContext with
  | error err => simp [hauth, storedLines] at h
  | ok user =>
    cases hbind : c.ShouldBindCart with
    | error err => simp [hauth, hbind, storedLines] at h
    | ok cart =>
      cases hrow : r.GetCartItemByProductID s cart.ProductID with
      | error err => simp [hauth, hbind, hrow, storedLines] at h
      | ok shoppingCart =>
        cases hp : r.GetProductByID s cart.ProductID with
        | error err => simp [hauth, hbind, hrow, hp, storedLines] at h
        | ok product =>
          by_cases hq : cart.Quantity > product.Quantity
          · simp [hauth, hbind, hrow, hp, hq, storedLines] at h
          · simp only [hauth, hbind, hrow, hp, hq, if_false] at h
            rcases hw : r.AddToCart s { cart with UserID := user.ID, ID := shoppingCart.ID }
              with ⟨_ | err, s'⟩ <;>
              simp only [hw, storedLines, List.mem_singleton] at h <;>
              exact ⟨user, cart, shoppingCart, product, rfl, rfl, hrow, hp, not_lt.1 hq, h⟩

/-- C8, as amended. For an authenticated `AddToCart` request whose body binds
and whose product lookup succeeds, and for an authenticated `EditCart` request
whose body binds, whose cart-row lookup succeeds and whose product lookup
succeeds, a requested quantity above the available quantity gives status 400;
when the cart-row lookup of `EditCart` fails the status is 404 instead.  In all
these cases `Repository.AddToCart` is not invoked and the store is left as it
was.  Conversely every line either handler hands to `Repository.AddToCart`, on
any request, has a quantity at most the available quantity read in that
request. -/
theorem cart_stock_guard {σ : Type} (r : Repository σ) (c : Context) (s : σ)
    (user : User) (cart : IndividualItemInCart) (product : Product)
    (hauth : c.GetUserFromContext = .ok user)
    (hbind : c.ShouldBindCart = .ok cart)
    (hprod : r.GetProductByID s cart.ProductID = .ok product)
    (hgt : cart.Quantity > product.Quantity) :
    ((AddToCart r c s).response.status = 400 ∧ storedLines (AddToCart r c s).calls = [] ∧
        (AddToCart r c s).store = s) ∧
      ((∀ row, r.GetCartItemByProductID s cart.ProductID = .ok row →
          (EditCart r c s).response.status = 400) ∧
        (∀ err, r.GetCartItemByProductID s cart.ProductID = .error err →
          (EditCart r c s).response.status = 404) ∧
        storedLines (EditCart r c s).calls = [] ∧ (EditCart r c s).store = s) ∧
      (∀ (c' : Context) (s' : σ), ∀ line ∈ storedLines (AddToCart r c' s').calls,
        ∃ p, r.GetProductByID s' line.ProductID = .ok p ∧ line.Quantity ≤ p.Quantity) ∧
      (∀ (c' : Context) (s' : σ), ∀ line ∈ storedLines (EditCart r c' s').calls,
        ∃ p, r.GetProductByID s' line.ProductID = .ok p ∧ line.Quantity ≤ p.Quantity) := by
  refine ⟨?_, ?_, ?_, ?_⟩
  · unfold AddToCart
    simp [hauth, hbind, hprod, hgt, respond, storedLines]
  · unfold EditCart
    simp only [hauth, hbind]
    cases hrow : r.GetCartItemByProductID s cart.ProductID with
    | error err => simp [storedLines, respond]
    | ok shoppingCart => simp [hprod, hgt, respond, storedLines]
  · intro c' s' line hline
    obtain ⟨u, b, p, -, -, hp, hq, rfl⟩ := AddToCart_stored r c' s' line hline
    exact ⟨p, hp, hq⟩
  · intro c' s' line hline
    obtain ⟨u, b, row, p, -, -, -, hp, hq, rfl⟩ := EditCart_stored r c' s' line hline
    exact ⟨p, hp, hq⟩

/-- C10, as amended. Every cart line that `AddToCart` or `EditCart` hands to
`Repository.AddToCart` carries the quantity of the bound body unchanged: there
is no lower bound, a body whose quantity does not exceed the stock is handed on
whatever its quantity, so the line has quantity at least 1 exactly when the
requested quantity is at least 1.  Every order item built by `PlaceOrder`
carries the quantity of its cart line, so all items have quantity at least 1
when all lines of the cart have. -/
theorem cart_quantity_carried {σ : Type} (r : Repository σ) (c : Context) (s : σ)
    (user : User) (cart : IndividualItemInCart) (lines : List IndividualItemInCart)
    (hauth : c.GetUserFromContext = .ok user)
    (hbind : c.ShouldBindCart = .ok cart)
    (hcart : r.GetCartsByUserID s user.ID = .ok lines) :
    (∀ line ∈ storedLines (AddToCart r c s).calls ++ storedLines (EditCart r c s).calls,
        line.Quantity = cart.Quantity) ∧
      (∀ product, r.GetProductByID s cart.ProductID = .ok product →
        cart.Quantity ≤ product.Quantity →
        storedLines (AddToCart r c s).calls = [{ cart with UserID := user.ID }] ∧
        ∀ row, r.GetCartItemByProductID s cart.ProductID = .ok row →
          storedLines (EditCart r c s).calls = [{ cart with UserID := user.ID, ID := row.ID }]) ∧
      (∀ order ∈ createdOrders (PlaceOrder r c s).calls,
        order.Items.map (fun item => item.Quantity) = lines.map (fun line => line.Quantity)) ∧
      ((∀ line ∈ lines, 1 ≤ line.Quantity) →
        ∀ order ∈ createdOrders (PlaceOrder r c s).calls, ∀ item ∈ order.Items,
          1 ≤ item.Quantity) := by
  have hitems : ∀ order ∈ createdOrders (PlaceOrder r c s).calls,
      order.Items = lines.map orderItemOf := by
    intro order horder
    obtain ⟨u, ls, hu, hls, -, -, rfl⟩ := PlaceOrder_created r c s order horder
    rw [hauth] at hu
    cases hu
    rw [hcart] at hls
    cases hls
    rfl
  refine ⟨?_, ?_, ?_, ?_⟩
  · intro line hline
    rcases List.mem_append.1 hline with h | h
    · obtain ⟨u, b, p, -, hb, -, -, rfl⟩ := AddToCart_stored r c s line h
      rw [hbind] at hb
      cases hb
      rfl
    · obtain ⟨u, b, row, p, -, hb, -, -, -, rfl⟩ := EditCart_stored r c s line h
      rw [hbind] at hb
      cases hb
      rfl
  · intro product hprod hle
    have hq : ¬ cart.Quantity > product.Quantity := not_lt.2 hle
    constructor
    · unfold AddToCart
      simp only [hauth, hbind, hprod, hq, if_false]
      rcases hw : r.AddToCart s { cart with UserID := user.ID } with ⟨_ | err, s'⟩ <;>
        simp [storedLines]
    · intro row hrow
      unfold EditCart
      simp only [hauth, hbind, hrow, hprod, hq, if_false]
      rcases hw : r.AddToCart s { cart with UserID := user.ID, ID := row.ID }
        with ⟨_ | err, s'⟩ <;> simp [storedLines]
  · intro order horder
    rw [hitems order horder]
    simp [orderItemOf, Function.comp_def]
  · intro hlines order horder item hitem
    rw [hitems order horder] at hitem
    obtain ⟨line, hline, rfl⟩ := List.mem_map.1 hitem
    exact hlines line hline

/-! ## The access guard -/

/-- C6, on the code. When `GetUserFromContext` rejects the credential, no
handler issues a repository call and the store is left as it was;
`GetAllProducts`, `GetProductByID`, `AddToCart` and `EditCart` answer 401, while
`ViewCart`, `DeleteProductFromCart`, `OrderHistory` and `PlaceOrder` answer
500. -/
theorem guard_rejection {σ : Type} (r : Repository σ) (c : Context) (s : σ) (err : String) :
    ((GetAllProducts r { c with GetUserFromContext := .error err } s).response.status = 401 ∧
      (GetProductByID r { c with GetUserFromContext := .error err } s).response.status = 401 ∧
      (AddToCart r { c with GetUserFromContext := .error err } s).response.status = 401 ∧
      (EditCart r { c with GetUserFromContext := .error err } s).response.status = 401) ∧
    ((ViewCart r { c with GetUserFromContext := .error err } s).response.status = 500 ∧
      (DeleteProductFromCart r { c with GetUserFromContext := .error err } s).response.status
        = 500 ∧
      (OrderHistory r { c with GetUserFromContext := .error err } s).response.status = 500 ∧
      (PlaceOrder r { c with GetUserFromContext := .error err } s).response.status = 500) ∧
    ((GetAllProducts r { c with GetUserFromContext := .error err } s).calls = [] ∧
      (GetProductByID r { c with GetUserFromContext := .error err } s).calls = [] ∧
      (AddToCart r { c with GetUserFromContext := .error err } s).calls = [] ∧
      (EditCart r { c with GetUserFromContext := .error err } s).calls = [] ∧
      (ViewCart r { c with GetUserFromContext := .error err } s).calls = [] ∧
      (DeleteProductFromCart r { c with GetUserFromContext := .error err } s).calls = [] ∧
      (OrderHistory r { c with GetUserFromContext := .error err } s).calls = [] ∧
      (PlaceOrder r { c with GetUserFromContext := .error err } s).calls = []) := by
  simp [GetAllProducts, GetProductByID, AddToCart, EditCart, ViewCart, DeleteProductFromCart,
    OrderHistory, PlaceOrder, respond]

/-! ## `DeleteProductFromCart` -/

/-- C7, on the code. The outcome of `DeleteProductFromCart` does not depend on
which user is authenticated: the cart row is looked up by product identifier
alone.  On a store whose only cart row belongs to user 2 and holds product 7, a
request of user 1 to delete product 7 answers 200, hands user 2's row to
`Repository.DeleteProductFromCart` and leaves user 2's cart empty. -/
theorem deleteProductFromCart_ignores_user :
    (∀ (σ : Type) (r : Repository σ) (c : Context) (s : σ) (u v : User),
      DeleteProductFromCart r { c with GetUserFromContext := .ok u } s =
        DeleteProductFromCart r { c with GetUserFromContext := .ok v } s) ∧
    memRepo.GetCartsByUserID storeOtherUser 1 = .ok [] ∧
    memRepo.GetCartsByUserID storeOtherUser 2 =
      .ok [{ ID := 1, UserID := 2, ProductID := 7, Quantity := 1 }] ∧
    (DeleteProductFromCart memRepo deleteRequest storeOtherUser).response.status = 200 ∧
    (DeleteProductFromCart memRepo deleteRequest storeOtherUser).calls =
      [.GetCartItemByProductID 7,
        .DeleteProductFromCart { ID := 1, UserID := 2, ProductID := 7, Quantity := 1 }] ∧
    memRepo.GetCartsByUserID
      (DeleteProductFromCart memRepo deleteRequest storeOtherUser).store 2 = .ok [] := by
  refine ⟨fun σ r c s u v => rfl, rfl, rfl, rfl, rfl, rfl⟩

/-! ## `LoginUser` -/

/-- C9. For a login request whose body binds: an empty email or password gives
400 with no repository call; a failed email lookup gives 404; a password that
does not verify gives 400; the response is 200 exactly when the password
verifies and both tokens were signed from the claims of the found user's email,
and then the access and refresh tokens are the two response headers and are in
the body; on every other path no header is set and the body holds no token. -/
theorem loginUser_contract {σ κ : Type} (r : Repository σ) (m : Middleware κ) (c : Context)
    (s : σ) (req : LoginRequestUser) (hbind : c.ShouldBindLogin = .ok req) :
    ((req.Email = "" ∨ req.Password = "") →
        (LoginUser r m c s).response.status = 400 ∧ (LoginUser r m c s).calls = []) ∧
      (req.Email ≠ "" → req.Password ≠ "" → ∀ err,
        r.FindUserByEmail s req.Email = .error err →
        (LoginUser r m c s).response.status = 404) ∧
      (req.Email ≠ "" → req.Password ≠ "" → ∀ user err,
        r.FindUserByEmail s req.Email = .ok user →
        m.CompareHashAndPassword user.Password req.Password = .error err →
        (LoginUser r m c s).response.status = 400) ∧
      ((LoginUser r m c s).response.status = 200 ↔
        ∃ user access refresh, loginSucceeds r m c s req user access refresh) ∧
      (∀ user access refresh, loginSucceeds r m c s req user access refresh →
        (LoginUser r m c s).response.headers =
            [("access_token", access), ("refresh_token", refresh)] ∧
          (LoginUser r m c s).response.data = .login user access refresh) ∧
      ((LoginUser r m c s).response.status ≠ 200 →
        (LoginUser r m c s).response.headers = [] ∧
          ∀ user access refresh,
            (LoginUser r m c s).response.data ≠ .login user access refresh) := by
  unfold loginSucceeds
  by_cases hempty : req.Email = "" ∨ req.Password = ""
  · have hne : ¬ (req.Email ≠ "" ∧ req.Password ≠ "") := by
      intro h; rcases hempty with h1 | h1
      · exact h.1 h1
      · exact h.2 h1
    have hout : LoginUser r m c s =
        ⟨respond "Email and Password must not be empty" 400 .null, s, []⟩ := by
      unfold LoginUser
      simp only [hbind, hempty, if_true]
    rw [hout]
    refine ⟨fun _ => ⟨rfl, rfl⟩, fun h1 h2 => absurd ⟨h1, h2⟩ hne,
      fun h1 h2 => absurd ⟨h1, h2⟩ hne, ?_, ?_, ?_⟩
    · constructor
      · intro h; simp [respond] at h
      · rintro ⟨_, _, _, h1, h2, -⟩; exact absurd ⟨h1, h2⟩ hne
    · rintro _ _ _ ⟨h1, h2, -⟩; exact absurd ⟨h1, h2⟩ hne
    · intro _; simp [respond]
  · have h1 : req.Email ≠ "" := fun h => hempty (Or.inl h)
    have h2 : req.Password ≠ "" := fun h => hempty (Or.inr h)
    cases hfind : r.FindUserByEmail s req.Email with
    | error err =>
      have hout : LoginUser r m c s =
          ⟨respond "Email does not exist" 404 (.text err), s,
            [.FindUserByEmail req.Email]⟩ := by
        unfold LoginUser
        simp only [hbind, hempty, if_false, hfind]
      rw [hout]
      refine ⟨fun h => absurd h hempty, fun _ _ _ _ => rfl, fun _ _ _ _ h _ => (by cases h),
        ?_, ?_, ?_⟩
      · constructor
        · intro h; simp [respond] at h
        · rintro ⟨_, _, _, -, -, hu, -⟩; cases hu
      · rintro _ _ _ ⟨-, -, hu, -⟩; cases hu
      · intro _; simp [respond]
    | ok user =>
      cases hcmp : m.CompareHashAndPassword user.Password req.Password with
      | error err =>
        have hout : LoginUser r m c s =
            ⟨respond "invalid email or password" 400 (.text "invalid email or password"), s,
              [.FindUserByEmail req.Email]⟩ := by
          unfold LoginUser
          simp only [hbind, hempty, if_false, hfind, hcmp]
        rw [hout]
        refine ⟨fun h => absurd h hempty, fun _ _ _ h => (by cases h), fun _ _ _ _ _ _ => rfl,
          ?_, ?_, ?_⟩
        · constructor
          · intro h; simp [respond] at h
          · rintro ⟨u, _, _, -, -, hu, hc, -⟩
            cases hu
            rw [hcmp] at hc
            cases hc
        · rintro u _ _ ⟨-, -, hu, hc, -⟩
          cases hu
          rw [hcmp] at hc
          cases hc
        · intro _; simp [respond]
      | ok done =>
        cases done
        cases hat : m.GenerateToken (m.GenerateClaims user.Email).1 c.JWT_SECRET with
        | error err =>
          have hout : LoginUser r m c s =
              ⟨respond "Error generating access token" 500 (.text err), s,
                [.FindUserByEmail req.Email]⟩ := by
            unfold LoginUser
            simp only [hbind, hempty, if_false, hfind, hcmp, hat]
          rw [hout]
          refine ⟨fun h => absurd h hempty, fun _ _ _ h => (by cases h), ?_, ?_, ?_, ?_⟩
          · intro _ _ u _ hu hc
            cases hu
            rw [hcmp] at hc
            cases hc
          · constructor
            · intro h; simp [respond] at h
            · rintro ⟨u, _, _, -, -, hu, -, ha, -⟩
              cases hu
              rw [hat] at ha
              cases ha
          · rintro u _ _ ⟨-, -, hu, -, ha, -⟩
            cases hu
            rw [hat] at ha
            cases ha
          · intro _; simp [respond]
        | ok access =>
          cases hrt : m.GenerateToken (m.GenerateClaims user.Email).2 c.JWT_SECRET with
          | error err =>
            have hout : LoginUser r m c s =
                ⟨respond "Error generating refresh token" 500 (.text err), s,
                  [.FindUserByEmail req.Email]⟩ := by
              unfold LoginUser
              simp only [hbind, hempty, if_false, hfind, hcmp, hat, hrt]
            rw [hout]
            refine ⟨fun h => absurd h hempty, fun _ _ _ h => (by cases h), ?_, ?_, ?_, ?_⟩
            · intro _ _ u _ hu hc
              cases hu
              rw [hcmp] at hc
              cases hc
            · constructor
              · intro h; simp [respond] at h
              · rintro ⟨u, _, _, -, -, hu, -, -, hr⟩
                cases hu
                rw [hrt] at hr
                cases hr
            · rintro u _ _ ⟨-, -, hu, -, -, hr⟩
              cases hu
              rw [hrt] at hr
              cases hr
            · intro _; simp [respond]
          | ok refresh =>
            have hout : LoginUser r m c s =
                ⟨{ message := "Login successful", status := 200,
                   data := .login user access refresh,
                   headers := [("access_token", access), ("refresh_token", refresh)] },
                  s, [.FindUserByEmail req.Email]⟩ := by
              unfold LoginUser
              simp only [hbind, hempty, if_false, hfind, hcmp, hat, hrt]
            rw [hout]
            refine ⟨fun h => absurd h hempty, fun _ _ _ h => (by cases h), ?_, ?_, ?_, ?_⟩
            · intro _ _ u _ hu hc
              cases hu
              rw [hcmp] at hc
              cases hc
            · constructor
              · intro _; exact ⟨user, access, refresh, h1, h2, rfl, hcmp, hat, hrt⟩
              · intro _; rfl
            · rintro u a b ⟨-, -, hu, -, ha, hr⟩
              cases hu
              rw [hat] at ha
              rw [hrt] at hr
              cases ha
              cases hr
              exact ⟨rfl, rfl⟩
            · intro h; exact absurd rfl h

/-! ## No oversell, on the in-memory repository -/

theorem stockOf_memRepo (s : Store) (p : Nat) :
    stockOf memRepo s p = ledgerQty s.products p := by
  unfold stockOf ledgerQty memRepo
  cases h : findProduct s.products p <;> simp [h]

theorem ledgerQty_cons (x : Product) (xs : List Product) (p : Nat) :
    ledgerQty (x :: xs) p = if x.ID = p then some x.Quantity else ledgerQty xs p := by
  by_cases h : x.ID = p <;> simp [ledgerQty, findProduct, h]

/-- A conditional update that took effect lowers the quantity of its product by
`n`, had at least `n` available, and leaves every other product as it was. -/
theorem decrementStock_ledger (ps : List Product) :
    ∀ (ps' : List Product) (id : Nat) (n : Int), decrementStock ps id n = some ps' →
      ∀ (p : Nat) (q : Int), ledgerQty ps p = some q →
        ledgerQty ps' p = some (q - (if id = p then n else 0)) ∧ (id = p → n ≤ q) := by
  induction ps with
  | nil => intro ps' id n h; simp [decrementStock] at h
  | cons x xs ih =>
    intro ps' id n h p q hq
    unfold decrementStock at h
    rw [ledgerQty_cons] at hq
    by_cases hx : x.ID = id
    · by_cases hn : x.Quantity ≥ n
      · simp only [hx, hn, if_true, Option.some.injEq] at h
        subst h
        rw [ledgerQty_cons]
        by_cases hp : id = p
        · have hxp : x.ID = p := hx.trans hp
          simp only [hxp, if_true, Option.some.injEq] at hq
          subst hq
          exact ⟨by simp [hxp, hp], fun _ => hn⟩
        · have hxp : ¬ x.ID = p := fun h' => hp (hx.symm.trans h')
          simp only [hxp, if_false] at hq
          exact ⟨by simp [hxp, hp, hq], fun h' => absurd h' hp⟩
      · simp [hx, hn] at h
    · simp only [hx, if_false] at h
      cases hrec : decrementStock xs id n with
      | none => simp [hrec] at h
      | some xs' =>
        simp only [hrec, Option.some.injEq] at h
        subst h
        rw [ledgerQty_cons]
        by_cases hxp : x.ID = p
        · have hp : ¬ id = p := fun h' => hx (hxp.trans h'.symm)
          simp only [hxp, if_true, Option.some.injEq] at hq
          subst hq
          exact ⟨by simp [hxp, hp], fun h' => absurd h' hp⟩
        · simp only [hxp, if_false] at hq
          simp only [hxp, if_false]
          exact ih xs' id n hrec p q hq

/-- A commit of all lines that took effect lowers the quantity of product `p`
by the total the lines ask of `p`, and keeps it non-negative. -/
theorem decrementAll_ledger (items : List OrderItem) :
    ∀ (ps ps' : List Product), decrementAll ps items = some ps' →
      ∀ (p : Nat) (q : Int), ledgerQty ps p = some q → 0 ≤ q →
        ∃ q', ledgerQty ps' p = some q' ∧ 0 ≤ q' ∧ q' + itemsQty p items = q := by
  induction items with
  | nil =>
    intro ps ps' h p q hq h0
    simp only [decrementAll, Option.some.injEq] at h
    subst h
    exact ⟨q, hq, h0, by simp [itemsQty]⟩
  | cons item rest ih =>
    intro ps ps' h p q hq h0
    unfold decrementAll at h
    cases hstep : decrementStock ps item.ProductID item.Quantity with
    | none => simp [hstep] at h
    | some mid =>
      simp only [hstep] at h
      obtain ⟨hmid, hle⟩ := decrementStock_ledger ps mid item.ProductID item.Quantity hstep p q hq
      have hnonneg : 0 ≤ q - (if item.ProductID = p then item.Quantity else 0) := by
        by_cases hp : item.ProductID = p
        · have := hle hp
          simp only [hp, if_true]
          linarith
        · simp only [hp, if_false]
          linarith
      obtain ⟨q', hq', h0', hsum⟩ := ih mid ps' h p _ hmid hnonneg
      refine ⟨q', hq', h0', ?_⟩
      unfold itemsQty
      linarith

theorem ordersQty_append (p : Nat) (xs ys : List Order) :
    ordersQty p (xs ++ ys) = ordersQty p xs + ordersQty p ys := by
  induction xs with
  | nil => simp [ordersQty]
  | cons x xs ih => simp [ordersQty, ih, add_assoc]

/-- Either `PlaceOrder` leaves the store as it was and does not answer 200, or
the cart was non-empty and passed the validation. -/
theorem PlaceOrder_cases {σ : Type} (r : Repository σ) (c : Context) (s : σ) :
    ((PlaceOrder r c s).store = s ∧ (PlaceOrder r c s).response.status ≠ 200) ∨
      ∃ user lines, c.GetUserFromContext = .ok user ∧ r.GetCartsByUserID s user.ID = .ok lines ∧
        lines ≠ [] ∧ ∀ line ∈ lines, lineInStock r s line := by
  cases hauth : c.GetUserFromContext with
  | error err => left; simp [PlaceOrder, hauth, respond]
  | ok user =>
    cases hcart : r.GetCartsByUserID s user.ID with
    | error err => left; simp [PlaceOrder, hauth, hcart, respond]
    | ok lines =>
      by_cases hlen : lines.length = 0
      · left; simp [PlaceOrder, hauth, hcart, hlen, respond]
      · rcases hloop : placeOrderLoop r s lines 0 [] [Call.GetCartsByUserID user.ID]
          with ⟨resp | x, calls⟩
        · left
          have h1 := placeOrderLoop_error_status r s lines 0 []
            [Call.GetCartsByUserID user.ID] resp (by rw [hloop])
          unfold PlaceOrder
          simp only [hauth, hcart, hlen, if_false, hloop]
          refine ⟨trivial, ?_⟩
          rcases h1 with h1 | h1 <;> rw [h1] <;> decide
        · right
          exact ⟨user, lines, rfl, hcart, fun h0 => hlen (by simp [h0]),
            placeOrderLoop_ok_inv r s lines 0 [] [Call.GetCartsByUserID user.ID] x
              (by rw [hloop])⟩

theorem memRepo_CreateOrder (s : Store) (order : Order) :
    memRepo.CreateOrder s order =
      match decrementAll s.products order.Items with
      | none => (some "insufficient stock", s)
      | some ps =>
        (none, { s with products := ps
                        carts := s.carts.filter (fun line => line.UserID ≠ order.UserID)
                        orders := s.orders ++ [{ order with ID := s.orders.length + 1 }] }) :=
  rfl

/-- One `PlaceOrder` on the in-memory repository: the quantity of product `p`
stays non-negative and drops by exactly what the placed order, if any, holds of
`p`. -/
theorem PlaceOrder_mem_step (c : Context) (s : Store) (p : Nat) (q : Int)
    (hq : ledgerQty s.products p = some q) (h0 : 0 ≤ q) :
    ∃ q', ledgerQty (PlaceOrder memRepo c s).store.products p = some q' ∧ 0 ≤ q' ∧
      q' + ordersQty p (placedBy (PlaceOrder memRepo c s)) = q := by
  rcases PlaceOrder_cases memRepo c s with ⟨hstore, hstatus⟩ | ⟨user, lines, hauth, hcart, hne, hvalid⟩
  · refine ⟨q, by rw [hstore]; exact hq, h0, ?_⟩
    simp [placedBy, hstatus, ordersQty]
  · obtain ⟨hcalls, hstore, hstatus⟩ := PlaceOrder_valid memRepo c s user lines hauth hcart hne hvalid
    cases hdec : decrementAll s.products (orderOf memRepo s user lines).Items with
    | none =>
      have hco : memRepo.CreateOrder s (orderOf memRepo s user lines) =
          (some "insufficient stock", s) := by
        rw [memRepo_CreateOrder]
        simp only [hdec]
      rw [hco] at hstore hstatus
      have hne200 : (PlaceOrder memRepo c s).response.status ≠ 200 := by
        intro h; have := hstatus.1 h; cases this
      refine ⟨q, by rw [hstore]; exact hq, h0, ?_⟩
      simp [placedBy, hne200, ordersQty]
    | some ps' =>
      have hco : (memRepo.CreateOrder s (orderOf memRepo s user lines)).1 = none ∧
          (memRepo.CreateOrder s (orderOf memRepo s user lines)).2.products = ps' := by
        rw [memRepo_CreateOrder]
        simp only [hdec, and_self]
      have h200 : (PlaceOrder memRepo c s).response.status = 200 := hstatus.2 hco.1
      obtain ⟨q', hq', h0', hsum⟩ :=
        decrementAll_ledger _ s.products ps' hdec p q hq h0
      refine ⟨q', by rw [hstore, hco.2]; exact hq', h0', ?_⟩
      have hplaced : placedBy (PlaceOrder memRepo c s) = [orderOf memRepo s user lines] := by
        unfold placedBy
        rw [if_pos h200, hcalls]
        have h0 := createdOrders_reads (lines.map (fun line => line.ProductID))
        rw [List.map_map] at h0
        have h1 : (lines.map (fun line => Call.GetProductByID line.ProductID)) =
            lines.map (Call.GetProductByID ∘ fun line => line.ProductID) := rfl
        simp [createdOrders, createdOrders_append, h1, h0]
      rw [hplaced]
      simp only [ordersQty, add_zero]
      exact hsum

/-- A sequence of `PlaceOrder` requests on the in-memory repository: the
quantity of product `p` stays non-negative and drops by exactly what the placed
orders hold of `p`. -/
theorem placeOrders_mem (requests : List Context) :
    ∀ (s : Store) (p : Nat) (q : Int), ledgerQty s.products p = some q → 0 ≤ q →
      ∃ q', ledgerQty (placeOrders memRepo s requests).1.products p = some q' ∧ 0 ≤ q' ∧
        q' + ordersQty p (placeOrders memRepo s requests).2 = q := by
  induction requests with
  | nil => intro s p q hq h0; exact ⟨q, hq, h0, by simp [placeOrders, ordersQty]⟩
  | cons c rest ih =>
    intro s p q hq h0
    obtain ⟨q1, hq1, h01, hsum1⟩ := PlaceOrder_mem_step c s p q hq h0
    obtain ⟨q2, hq2, h02, hsum2⟩ := ih (PlaceOrder memRepo c s).store p q1 hq1 h01
    refine ⟨q2, hq2, h02, ?_⟩
    simp only [placeOrders, ordersQty_append]
    linarith

/-- C4. No oversell, with `PlaceOrder` run on the in-memory repository whose
`CreateOrder` decrements the stock by conditional update: from a store in which
product `p` has stock `S`, after any sequence of `PlaceOrder` requests by any
users the quantities of `p` over the orders placed successfully sum to at most
`S`, and the available quantity of `p` is non-negative and equals `S` minus that
sum; in particular two placements in a row hold at most `S` of `p` together, so
with `S = 1` they cannot both succeed with a unit of `p`. -/
theorem no_oversell (s0 : Store) (requests : List Context) (p : Nat) (S : Int)
    (hstock : stockOf memRepo s0 p = some S) (hS : 0 ≤ S) :
    ordersQty p (placeOrders memRepo s0 requests).2 ≤ S ∧
      (∃ q, stockOf memRepo (placeOrders memRepo s0 requests).1 p = some q ∧ 0 ≤ q ∧
        q + ordersQty p (placeOrders memRepo s0 requests).2 = S) ∧
      (∀ c1 c2 : Context,
        ordersQty p (placedBy (PlaceOrder memRepo c1 s0)) +
          ordersQty p (placedBy (PlaceOrder memRepo c2 (PlaceOrder memRepo c1 s0).store)) ≤ S) ∧
      (S = 1 → ∀ c1 c2 : Context,
        ¬ (1 ≤ ordersQty p (placedBy (PlaceOrder memRepo c1 s0)) ∧
          1 ≤ ordersQty p (placedBy (PlaceOrder memRepo c2 (PlaceOrder memRepo c1 s0).store)))) := by
  rw [stockOf_memRepo] at hstock
  have hpair : ∀ c1 c2 : Context,
      ordersQty p (placedBy (PlaceOrder memRepo c1 s0)) +
        ordersQty p (placedBy (PlaceOrder memRepo c2 (PlaceOrder memRepo c1 s0).store)) ≤ S := by
    intro c1 c2
    obtain ⟨q, -, h0, hsum⟩ := placeOrders_mem [c1, c2] s0 p S hstock hS
    simp only [placeOrders, ordersQty_append, List.append_nil] at hsum
    linarith
  obtain ⟨q, hq, h0, hsum⟩ := placeOrders_mem requests s0 p S hstock hS
  refine ⟨by linarith, ⟨q, by rw [stockOf_memRepo]; exact hq, h0, hsum⟩, hpair, ?_⟩
  intro h1 c1 c2 hboth
  have := hpair c1 c2
  linarith [hboth.1, hboth.2]

/-! ## Evaluations on concrete stores -/

/-- C1 at a concrete store: the cart of user 1 holds 1 of B (stock 5) and then
10 of A (stock 3); the order is refused with 400, nothing is written and the
cart still holds both lines. -/
theorem placeOrder_insufficient_stock_witness :
    memRepo.GetCartsByUserID storeShortStock 1 = .ok storeShortStock.carts ∧
      (PlaceOrder memRepo (requestOf 1) storeShortStock).response.status = 400 ∧
      createdOrders (PlaceOrder memRepo (requestOf 1) storeShortStock).calls = [] ∧
      (∀ call ∈ (PlaceOrder memRepo (requestOf 1) storeShortStock).calls, call.isWrite = false) ∧
      (PlaceOrder memRepo (requestOf 1) storeShortStock).store = storeShortStock ∧
      memRepo.GetCartsByUserID (PlaceOrder memRepo (requestOf 1) storeShortStock).store 1 =
        .ok storeShortStock.carts :=
  ⟨rfl,
    placeOrder_insufficient_stock memRepo (requestOf 1) storeShortStock
      { ID := 1, Email := "u@example.com", Password := "hash" } storeShortStock.carts rfl rfl
      (by decide)
      (by
        intro line hl
        simp only [storeShortStock, List.mem_cons, List.mem_singleton, List.not_mem_nil,
          or_false] at hl
        rcases hl with rfl | rfl
        · exact ⟨_, rfl⟩
        · exact ⟨_, rfl⟩)
      ⟨{ ID := 2, UserID := 1, ProductID := 1, Quantity := 10 }, by simp [storeShortStock],
        { ID := 1, Price := 10, Quantity := 3 }, rfl, by decide⟩⟩

/-- C2 at a concrete store: lines (A, price 10, quantity 2) and (B, price 5,
quantity 1), both within stock, give an order for user 1 with status "PLACED"
and total 25. -/
theorem placeOrder_order_header_witness :
    ∃ order, createdOrders (PlaceOrder memRepo (requestOf 1) storeTwoLines).calls = [order] ∧
      order.UserID = 1 ∧ order.Status = "PLACED" ∧ order.Total = 25 := by
  obtain ⟨order, h1, h2, h3, h4⟩ :=
    placeOrder_order_header memRepo (requestOf 1) storeTwoLines
      { ID := 1, Email := "u@example.com", Password := "hash" } storeTwoLines.carts rfl rfl
      (by decide)
      (by
        intro line hl
        simp only [storeTwoLines, List.mem_cons, List.mem_singleton, List.not_mem_nil,
          or_false] at hl
        rcases hl with rfl | rfl
        · exact ⟨_, rfl, by decide⟩
        · exact ⟨_, rfl, by decide⟩)
  refine ⟨order, h1, h2, h3, ?_⟩
  rw [h4]
  simp [priceOf, memRepo, findProduct, storeTwoLines]
  norm_num

/-- C3 at a concrete store: user 1 has no cart line; the order is refused with
400 "Cart is empty" after the cart lookup alone. -/
theorem placeOrder_empty_cart_witness :
    memRepo.GetCartsByUserID storeOtherUser 1 = .ok [] ∧
      (PlaceOrder memRepo (requestOf 1) storeOtherUser).response.status = 400 ∧
      (PlaceOrder memRepo (requestOf 1) storeOtherUser).response.message = "Cart is empty" ∧
      (PlaceOrder memRepo (requestOf 1) storeOtherUser).calls = [Call.GetCartsByUserID 1] ∧
      createdOrders (PlaceOrder memRepo (requestOf 1) storeOtherUser).calls = [] ∧
      (PlaceOrder memRepo (requestOf 1) storeOtherUser).store = storeOtherUser :=
  ⟨rfl,
    placeOrder_empty_cart memRepo (requestOf 1) storeOtherUser
      { ID := 1, Email := "u@example.com", Password := "hash" } rfl rfl⟩

/-- C4 at a concrete store: one unit of A is left and users 1 and 2 each hold
one unit of A; the first placement succeeds, the second is refused with 400,
and the placed quantity of A stays within the stock of 1. -/
theorem no_oversell_witness :
    stockOf memRepo storeLastUnit 1 = some 1 ∧
      ordersQty 1 (placeOrders memRepo storeLastUnit [requestOf 1, requestOf 2]).2 ≤ 1 ∧
      (PlaceOrder memRepo (requestOf 1) storeLastUnit).response.status = 200 ∧
      (PlaceOrder memRepo (requestOf 2)
        (PlaceOrder memRepo (requestOf 1) storeLastUnit).store).response.status = 400 :=
  ⟨rfl, (no_oversell storeLastUnit [requestOf 1, requestOf 2] 1 1 rfl (by decide)).1,
    by decide, by decide⟩

/-- C5, as stated, fails: on the store with lines (A, price 10, quantity 2) and
(B, price 5, quantity 1) the order is placed, the prices read are 10 and 5, and
the items handed to `CreateOrder` carry price 0 and 0. -/
theorem orderItems_price_counterexample :
    (PlaceOrder memRepo (requestOf 1) storeTwoLines).response.status = 200 ∧
      ∃ order, createdOrders (PlaceOrder memRepo (requestOf 1) storeTwoLines).calls = [order] ∧
        order.Items ≠ pricedItems memRepo storeTwoLines storeTwoLines.carts ∧
        order.Items.map (fun item => item.Price) = [0, 0] ∧
        (pricedItems memRepo storeTwoLines storeTwoLines.carts).map (fun item => item.Price)
          = [10, 5] := by
  have hvalid : ∀ line ∈ storeTwoLines.carts, lineInStock memRepo storeTwoLines line := by
    intro line hl
    simp only [storeTwoLines, List.mem_cons, List.mem_singleton, List.not_mem_nil,
      or_false] at hl
    rcases hl with rfl | rfl
    · exact ⟨_, rfl, by decide⟩
    · exact ⟨_, rfl, by decide⟩
  obtain ⟨hcalls, -, -⟩ := PlaceOrder_valid memRepo (requestOf 1) storeTwoLines
    { ID := 1, Email := "u@example.com", Password := "hash" } storeTwoLines.carts rfl rfl
    (by decide) hvalid
  refine ⟨by decide, orderOf memRepo storeTwoLines
    { ID := 1, Email := "u@example.com", Password := "hash" } storeTwoLines.carts, ?_, ?_, ?_, ?_⟩
  · rw [hcalls]
    simp [createdOrders, storeTwoLines]
  · simp [orderOf, pricedItems, orderItemOf, priceOf, memRepo, findProduct, storeTwoLines]
  · simp [orderOf, orderItemOf, storeTwoLines]
  · simp [pricedItems, orderItemOf, priceOf, memRepo, findProduct, storeTwoLines]

/-- C5 amended, at a concrete store: the order placed for lines (A, 2) and
(B, 1) has the two items (A, 2) and (B, 1), in that order. -/
theorem placeOrder_items_witness :
    (PlaceOrder memRepo (requestOf 1) storeTwoLines).response.status = 200 ∧
      ∃ order, createdOrders (PlaceOrder memRepo (requestOf 1) storeTwoLines).calls = [order] ∧
        order.Items.length = 2 ∧
        order.Items =
          [{ ID := 0, OrderID := 0, ProductID := 1, Quantity := 2, Price := 0 },
            { ID := 0, OrderID := 0, ProductID := 2, Quantity := 1, Price := 0 }] :=
  ⟨by decide,
    placeOrder_items memRepo (requestOf 1) storeTwoLines
      { ID := 1, Email := "u@example.com", Password := "hash" } storeTwoLines.carts rfl rfl
      (by decide)⟩

/-- C8, as stated, fails: user 1 is authenticated, the body binds to
quantity 10 of product A, the lookup of product A succeeds with stock 5, and no
cart row holds product A; `EditCart` answers 404, not 400, after the cart-row
lookup alone. -/
theorem editCart_missing_row_counterexample :
    (cartRequest 1 10).GetUserFromContext =
        .ok { ID := 1, Email := "u@example.com", Password := "hash" } ∧
      (cartRequest 1 10).ShouldBindCart =
        .ok { ID := 0, UserID := 0, ProductID := 1, Quantity := 10 } ∧
      memRepo.GetProductByID storeNoCart 1 = .ok { ID := 1, Price := 10, Quantity := 5 } ∧
      (10 : Int) > 5 ∧
      (EditCart memRepo (cartRequest 1 10) storeNoCart).response.status = 404 ∧
      ¬ (EditCart memRepo (cartRequest 1 10) storeNoCart).response.status = 400 ∧
      (EditCart memRepo (cartRequest 1 10) storeNoCart).calls = [.GetCartItemByProductID 1] :=
  ⟨rfl, rfl, rfl, by decide, by decide, by decide, rfl⟩

/-- C8 amended, at concrete stores: product A has stock 5 and the body asks
for 10.  With a cart row of product A in the store `AddToCart` and `EditCart`
both answer 400; with no cart row `EditCart` answers 404; nothing is handed to
`Repository.AddToCart` and the store is left as it was. -/
theorem cart_stock_guard_witness :
    ((AddToCart memRepo (cartRequest 1 10) storeTwoLines).response.status = 400 ∧
      storedLines (AddToCart memRepo (cartRequest 1 10) storeTwoLines).calls = [] ∧
      (EditCart memRepo (cartRequest 1 10) storeTwoLines).response.status = 400 ∧
      storedLines (EditCart memRepo (cartRequest 1 10) storeTwoLines).calls = [] ∧
      (EditCart memRepo (cartRequest 1 10) storeTwoLines).store = storeTwoLines) ∧
    ((EditCart memRepo (cartRequest 1 10) storeNoCart).response.status = 404 ∧
      storedLines (EditCart memRepo (cartRequest 1 10) storeNoCart).calls = [] ∧
      (EditCart memRepo (cartRequest 1 10) storeNoCart).store = storeNoCart) :=
  have h := cart_stock_guard memRepo (cartRequest 1 10) storeTwoLines
    { ID := 1, Email := "u@example.com", Password := "hash" }
    { ID := 0, UserID := 0, ProductID := 1, Quantity := 10 }
    { ID := 1, Price := 10, Quantity := 5 } rfl rfl rfl (by decide)
  have h' := cart_stock_guard memRepo (cartRequest 1 10) storeNoCart
    { ID := 1, Email := "u@example.com", Password := "hash" }
    { ID := 0, UserID := 0, ProductID := 1, Quantity := 10 }
    { ID := 1, Price := 10, Quantity := 5 } rfl rfl rfl (by decide)
  ⟨⟨h.1.1, h.1.2.1,
      h.2.1.1 { ID := 1, UserID := 1, ProductID := 1, Quantity := 2 } rfl,
      h.2.1.2.2.1, h.2.1.2.2.2⟩,
    ⟨h'.2.1.2.1 "record not found" rfl, h'.2.1.2.2.1, h'.2.1.2.2.2⟩⟩

/-- C9 at a concrete store: the registered user logs in with the right
password; the response is 200 and both tokens, issued for the user's email, are
in the headers and in the body. -/
theorem loginUser_contract_witness :
    (LoginUser memRepo testMiddleware loginRequest storeOneUser).response.status = 200 ∧
      (LoginUser memRepo testMiddleware loginRequest storeOneUser).response.headers =
        [("access_token", "access:ada@example.com:secret"),
          ("refresh_token", "refresh:ada@example.com:secret")] ∧
      (LoginUser memRepo testMiddleware loginRequest storeOneUser).response.data =
        .login { ID := 1, Email := "ada@example.com", Password := "pw" }
          "access:ada@example.com:secret" "refresh:ada@example.com:secret" :=
  have h := loginUser_contract memRepo testMiddleware loginRequest storeOneUser
    { Email := "ada@example.com", Password := "pw" } rfl
  have hs : loginSucceeds memRepo testMiddleware loginRequest storeOneUser
      { Email := "ada@example.com", Password := "pw" }
      { ID := 1, Email := "ada@example.com", Password := "pw" }
      "access:ada@example.com:secret" "refresh:ada@example.com:secret" :=
    ⟨by decide, by decide, rfl, rfl, rfl, rfl⟩
  ⟨h.2.2.2.1.2 ⟨_, _, _, hs⟩, (h.2.2.2.2.1 _ _ _ hs).1, (h.2.2.2.2.1 _ _ _ hs).2⟩

/-- C10, as stated, fails: a body with quantity 0 for product A (stock 5) is
handed to `Repository.AddToCart` by `AddToCart` and by `EditCart`, both
answering 200; and from a cart filled that way `PlaceOrder` builds an order item
with quantity 0. -/
theorem cart_quantity_zero_counterexample :
    (AddToCart memRepo (cartRequest 1 0) storeTwoLines).response.status = 200 ∧
      storedLines (AddToCart memRepo (cartRequest 1 0) storeTwoLines).calls =
        [{ ID := 0, UserID := 1, ProductID := 1, Quantity := 0 }] ∧
      (EditCart memRepo (cartRequest 1 0) storeTwoLines).response.status = 200 ∧
      storedLines (EditCart memRepo (cartRequest 1 0) storeTwoLines).calls =
        [{ ID := 1, UserID := 1, ProductID := 1, Quantity := 0 }] ∧
      ¬ (∀ line ∈ storedLines (AddToCart memRepo (cartRequest 1 0) storeTwoLines).calls,
        1 ≤ line.Quantity) ∧
      ¬ (∀ order ∈ createdOrders (PlaceOrder memRepo (requestOf 1)
          (AddToCart memRepo (cartRequest 7 0) storeOtherUser).store).calls,
        ∀ item ∈ order.Items, 1 ≤ item.Quantity) := by
  refine ⟨by decide, by decide, by decide, by decide, by decide, by decide⟩

/-- C10 amended, at a concrete store: a body with quantity 2 for product A is
handed on by both handlers with quantity 2, and the order placed from the cart
of user 1 has only items with quantity at least 1. -/
theorem cart_quantity_carried_witness :
    storedLines (AddToCart memRepo (cartRequest 1 2) storeTwoLines).calls =
        [{ ID := 0, UserID := 1, ProductID := 1, Quantity := 2 }] ∧
      storedLines (EditCart memRepo (cartRequest 1 2) storeTwoLines).calls =
        [{ ID := 1, UserID := 1, ProductID := 1, Quantity := 2 }] ∧
      (∀ order ∈ createdOrders (PlaceOrder memRepo (cartRequest 1 2) storeTwoLines).calls,
        ∀ item ∈ order.Items, 1 ≤ item.Quantity) :=
  have h := cart_quantity_carried memRepo (cartRequest 1 2) storeTwoLines
    { ID := 1, Email := "u@example.com", Password := "hash" }
    { ID := 0, UserID := 0, ProductID := 1, Quantity := 2 } storeTwoLines.carts rfl rfl rfl
  ⟨(h.2.1 { ID := 1, Price := 10, Quantity := 5 } rfl (by decide)).1,
    (h.2.1 { ID := 1, Price := 10, Quantity := 5 } rfl (by decide)).2
      { ID := 1, UserID := 1, ProductID := 1, Quantity := 2 } rfl,
    h.2.2.2 (by decide)⟩

end ECommerce
